import Mathlib

/-!
# Verification of the statistical-visualization core

A shallow embedding of the computation core of the `ecs163-25s` visualization
repository (files `ridgelinePlot.js`, `stackedBarChart.js`,
`parallelCoordinatesPlot.js`), together with proofs of the behavioural
properties claimed by its specification.

Numbers are modelled as `ℚ` (the JS code never relies on floating-point
rounding for the properties below); "invalid" numeric fields (`NaN` /
`undefined`) are modelled as `none : Option ℚ`.  JS's stable
`Array.prototype.sort` is modelled by `List.insertionSort`, which is stable
for the same comparator.
-/

namespace Viz

/-! ## DensityEstimator (`ridgelinePlot.js`, lines 109-115) -/

/-- `kernelEpanechnikov(k)` from `ridgelinePlot.js`:
`v => Math.abs(v /= k) <= 1 ? 0.75 * (1 - v * v) / k : 0`. -/
def kernelEpanechnikov (k : ℚ) : ℚ → ℚ := fun v =>
  if |v / k| ≤ 1 then 0.75 * (1 - (v / k) * (v / k)) / k else 0

/-- `d3.mean` on an (already validity-filtered) sample: sum divided by length. -/
def dmean (V : List ℚ) : ℚ := V.sum / (V.length : ℚ)

/-- `kernelDensityEstimator(kernel, X)` from `ridgelinePlot.js`:
`V => X.map(x => [x, d3.mean(V, v => kernel(x - v))])`. -/
def kernelDensityEstimator (kernel : ℚ → ℚ) (X : List ℚ) (V : List ℚ) :
    List (ℚ × ℚ) :=
  X.map fun x => (x, dmean (V.map fun v => kernel (x - v)))

/-- The estimator instance used by the chart:
`kde = kernelDensityEstimator(kernelEpanechnikov(20), grid)`, kept generic in
the evaluation grid `X`. -/
def kde (X V : List ℚ) : List (ℚ × ℚ) :=
  kernelDensityEstimator (kernelEpanechnikov 20) X V

/-- The density computation of `updateToGeneration` (`ridgelinePlot.js`,
lines 197-201): extract the valid `Total` observations and run the KDE only
when at least 2 remain, otherwise produce the explicit empty result.  The
same guard appears in the ridge click handler of the unnamed ridgeline file. -/
def updateToGenerationDensity (X : List ℚ) (values : List (Option ℚ)) :
    List (ℚ × ℚ) :=
  let genTotals := values.filterMap id
  if genTotals.length ≥ 2 then kde X genTotals else []

/-! ## The record model (one dataset row) -/

/-- One row of the Pokémon dataset, restricted to the fields the three charts
read.  Numeric stats are `Option ℚ`: `none` models `undefined`/`NaN`. -/
structure Record where
  Name : String
  Type_1 : String
  Type_2 : String
  HP : Option ℚ
  Attack : Option ℚ
  Defense : Option ℚ
  Sp_Atk : Option ℚ
  Sp_Def : Option ℚ
  Speed : Option ℚ
deriving DecidableEq

/-! ## CategoryAggregator (`stackedBarChart.js`, lines 54-77) -/

/-- `[...new Set(l)]`: deduplication keeping the first occurrence of each
element, via an accumulator of already-seen elements. -/
def uniqueAux (seen : List String) : List String → List String
  | [] => []
  | x :: xs => if x ∈ seen then uniqueAux seen xs else x :: uniqueAux (x :: seen) xs

/-- `[...new Set(l)]` (first-occurrence order). -/
def uniqueKeys (l : List String) : List String := uniqueAux [] l

/-- Lexicographic comparison of character lists, modelling
`a.localeCompare(b) <= 0` for the plain ASCII type names of the dataset. -/
def lexLe : List Char → List Char → Bool
  | [], _ => true
  | _ :: _, [] => false
  | a :: as, b :: bs => if a < b then true else if b < a then false else lexLe as bs

/-- The comparator of the `allSecondaryTypes` sort
(`(a, b) => a === "None" ? -1 : b === "None" ? 1 : a.localeCompare(b)`),
read as "`a` sorts no later than `b`". -/
def noneFirstBefore (a b : String) : Prop :=
  a = "None" ∨ (b ≠ "None" ∧ lexLe a.data b.data = true)

instance : DecidableRel noneFirstBefore := fun _ _ =>
  inferInstanceAs (Decidable (_ ∨ _))

/-- `allSecondaryTypes`: all distinct secondary types of the full dataset,
with `"None"` sorted first (`stackedBarChart.js`, lines 54-55). -/
def allSecondaryTypes (data : List Record) : List String :=
  List.insertionSort noneFirstBefore (uniqueKeys (data.map Record.Type_2))

/-- One aggregated group: a primary type, the rollup reducer's counts object
(as an ordered key/value list, including the effect of the final
`counts.total = leaves.length` assignment, which writes into the *same*
object as the per-secondary-type buckets), and the value of the object's
`total` property as read by the sort comparator and the x-scale.  Since the
assignment runs last, that property is always `leaves.length`, even when a
secondary type named `"total"` collides with it. -/
structure CategoryGroup where
  primaryType : String
  counts : List (String × Nat)
  total : Nat
deriving DecidableEq

/-- JS object property assignment `m[k] = v`: overwrite the value of an
existing key in place, otherwise append the new key. -/
def assign (m : List (String × Nat)) (k : String) (v : Nat) :
    List (String × Nat) :=
  if k ∈ m.map Prod.fst then m.map fun e => if e.1 = k then (k, v) else e
  else m ++ [(k, v)]

/-- JS object property read `m[k]` (every key read in the analyzed paths is
present, so the default is never exercised). -/
def readKey (m : List (String × Nat)) (k : String) : Nat :=
  (((m.find? fun e => e.1 = k).map Prod.snd).getD 0)

/-- The state of the reducer's counts object after the counting loop and
before the `counts.total` assignment (`stackedBarChart.js`, lines 62-66):
one entry per element of the precomputed secondary domain, counting the
leaves whose `Type_2` equals it (a leaf with a `Type_2` outside the domain
is not counted anywhere, mirroring the `counts[leaf.Type_2] !== undefined`
guard). -/
def countsFor (secTypes : List String) (leaves : List Record) :
    List (String × Nat) :=
  secTypes.map fun secType =>
    (secType, (leaves.filter fun leaf => leaf.Type_2 = secType).length)

/-- `d3.rollup(data, ..., d => d.Type_1)` flattened to a list in key
insertion order: one `CategoryGroup` per distinct primary type
(`stackedBarChart.js`, lines 60-71).  The counts object receives the final
`counts.total = leaves.length` assignment (line 67) on its own keys, so a
secondary type literally named `"total"` has its count bucket overwritten. -/
def countsByTypeFull (data : List Record) : List CategoryGroup :=
  (uniqueKeys (data.map Record.Type_1)).map fun primaryType =>
    let leaves := data.filter fun d => d.Type_1 = primaryType
    { primaryType := primaryType
      counts := assign (countsFor (allSecondaryTypes data) leaves) "total" leaves.length
      total := leaves.length }

/-- The comparator of `baseSortedCountsArray`
(`([,a],[,b]) => b.total - a.total`), read as "`a` sorts no later than `b`":
descending by total. -/
def totalDesc (a b : CategoryGroup) : Prop := b.total ≤ a.total

instance : DecidableRel totalDesc := fun _ _ =>
  inferInstanceAs (Decidable (_ ≤ _))

instance : IsTotal CategoryGroup totalDesc :=
  ⟨fun a b => Nat.le_total b.total a.total⟩

instance : IsTrans CategoryGroup totalDesc :=
  ⟨fun _ _ _ hab hbc => le_trans hbc hab⟩

/-- `baseSortedCountsArray` (`stackedBarChart.js`, lines 75-77): the groups
sorted descending by `total` with JS's stable sort. -/
def baseSortedCountsArray (data : List Record) : List CategoryGroup :=
  List.insertionSort totalDesc (countsByTypeFull data)

/-! ## NavigationStateMachine (`stackedBarChart.js`) -/

/-- The drill-down level, determined by the
`(activeFilterPrimaryType, activeFilterSecondaryType)` arguments of
`createStackedBarChart`: `(null, _)` is the overview, `(p, null)` the
primary-filtered view, `(p, s)` the detail list. -/
inductive NavState where
  | overview
  | primaryFiltered (p : String)
  | detailList (p : String) (s : String)
deriving DecidableEq

/-- The `stacked-bar-rect` click handler (`stackedBarChart.js`,
lines 297-308): on the overview it re-renders with the clicked primary type;
on a primary-filtered view it drills to the detail list only for the same
primary type; in the detail view no bars exist, so no forward transition. -/
def segmentClick : NavState → String → String → NavState
  | .overview, clickedPrimary, _ => .primaryFiltered clickedPrimary
  | .primaryFiltered p, clickedPrimary, secondaryKey =>
      if p = clickedPrimary then .detailList p secondaryKey else .primaryFiltered p
  | .detailList p s, _, _ => .detailList p s

/-- The `back-to-primary-link` handler (`stackedBarChart.js`, lines 129-139):
re-render with `(activeFilterPrimaryType, null)`.  The link only exists in
the detail view; elsewhere the state is unchanged. -/
def backToPrimary : NavState → NavState
  | .detailList p _ => .primaryFiltered p
  | st => st

/-- The `show-all-link` handler (`stackedBarChart.js`, lines 99-118):
re-render with `(null, null)`. -/
def showAll : NavState → NavState := fun _ => .overview

/-- The data selected by the bar-chart branch of `createStackedBarChart`
(lines 184-198): the displayed group list, the effective primary filter, and
whether the invalid-filter warning was emitted. -/
structure BarChartView where
  currentSortedCountsArray : List CategoryGroup
  effectiveFilterPrimaryType : Option String
  warned : Bool
deriving DecidableEq

/-- `createStackedBarChart`'s group selection (`stackedBarChart.js`,
lines 184-198): no filter shows every group; a filter found by
`baseSortedCountsArray.find` yields the single-element list; a filter that is
not found falls back to the full list, resets `effectiveFilterPrimaryType`
to `null` and emits `console.warn`. -/
def resolveBarChartView (base : List CategoryGroup)
    (activeFilterPrimaryType : Option String) : BarChartView :=
  match activeFilterPrimaryType with
  | none => ⟨base, none, false⟩
  | some p =>
    match base.find? (fun d => d.primaryType = p) with
    | some filteredData => ⟨[filteredData], some p, false⟩
    | none => ⟨base, none, true⟩

/-! ## AnimationController (`ridgelinePlot.js`, lines 184-299) -/

/-- The closure-held animation state of `createRidgelinePlot`:
`currentAnimationGenerationIndex`, `isPlaying`, whether `animationTimer` is
non-null, and the generation index last rendered by a successful
`updateToGeneration` call (the displayed curve). -/
structure AnimationState where
  currentAnimationGenerationIndex : Int
  isPlaying : Bool
  animationTimer : Bool
  displayedGeneration : Option Int
deriving DecidableEq

/-- The state effect of `updateToGeneration` (`ridgelinePlot.js`,
lines 189-192): an out-of-range index returns early and changes nothing; an
in-range index re-renders the chart for that generation. -/
def updateToGeneration (len : Nat) (st : AnimationState)
    (generationIdx : Int) : AnimationState :=
  if generationIdx < 0 ∨ generationIdx ≥ (len : Int) then st
  else { st with displayedGeneration := some generationIdx }

/-- `pauseAnimation` (`ridgelinePlot.js`, lines 264-273): stop the timer and
clear the playing flag (button relabelling is rendering-layer). -/
def pauseAnimation (st : AnimationState) : AnimationState :=
  { st with isPlaying := false, animationTimer := false }

/-- The slider `input` handler — the scrub operation (`ridgelinePlot.js`,
lines 275-281): pause if playing, store the raw slider value as the current
index, then attempt the display update. -/
def sliderInput (len : Nat) (st : AnimationState) (value : Int) :
    AnimationState :=
  let st1 := if st.isPlaying then pauseAnimation st else st
  let st2 := { st1 with currentAnimationGenerationIndex := value }
  updateToGeneration len st2 value

/-! ## SelectionCoordinator (`parallelCoordinatesPlot.js`) -/

/-- `allValidPokemonData` (`parallelCoordinatesPlot.js`, line 109): rows with
all six stat dimensions present and numeric. -/
def allValidPokemonData (data : List Record) : List Record :=
  data.filter fun d =>
    d.HP.isSome && d.Attack.isSome && d.Defense.isSome &&
    d.Sp_Atk.isSome && d.Sp_Def.isSome && d.Speed.isSome

/-- `dataToPlot` (`parallelCoordinatesPlot.js`, line 342): the filtered
working set, i.e. the valid rows whose primary type is checked. -/
def dataToPlot (data : List Record) (S : List String) : List Record :=
  (allValidPokemonData data).filter fun d => d.Type_1 ∈ S

/-- The closure-held selection state of `createParallelCoordinatesPlot`: the
checked type set and `selectedPokemon`. -/
structure PcpState where
  checkedTypes : List String
  selectedPokemon : Option Record
deriving DecidableEq

/-- The state effect of `updatePlot` (`parallelCoordinatesPlot.js`,
lines 339-349) when the checkbox set is replaced by `S`: the working set is
recomputed and the focus is cleared in the same update when no working-set
row carries the focused name. -/
def updatePlot (data : List Record) (S : List String) (st : PcpState) :
    PcpState :=
  let dtp := dataToPlot data S
  let sel := match st.selectedPokemon with
    | some sp => if (dtp.find? fun p => p.Name = sp.Name).isSome then some sp else none
    | none => none
  ⟨S, sel⟩

/-- The path click handler (`parallelCoordinatesPlot.js`, line 277): sets
`selectedPokemon` to the clicked datum.  The handler is attached only to
rendered paths, i.e. to members of the current working set, so focusing an
identity with no working-set row is structurally impossible and modelled as
a no-op. -/
def clickPokemonPath (data : List Record) (st : PcpState) (name : String) :
    PcpState :=
  match (dataToPlot data st.checkedTypes).find? fun d => d.Name = name with
  | some clicked => { st with selectedPokemon := some clicked }
  | none => st

/-! ## Concrete fixtures used by witnesses -/

/-- A valid Electric-type row. -/
def recPikachu : Record :=
  ⟨"Pikachu", "Electric", "None", some 35, some 55, some 40, some 50, some 50, some 90⟩

/-- A valid Grass/Poison row. -/
def recBulbasaur : Record :=
  ⟨"Bulbasaur", "Grass", "Poison", some 45, some 49, some 49, some 65, some 65, some 45⟩

/-- A second valid Grass/Poison row. -/
def recOddish : Record :=
  ⟨"Oddish", "Grass", "Poison", some 45, some 50, some 55, some 75, some 65, some 30⟩

/-- A small three-row dataset. -/
def sampleData : List Record := [recPikachu, recBulbasaur, recOddish]

/-- A row whose secondary type is the literal string `"total"`, colliding
with the reducer's reserved `total` key. -/
def recTotalType : Record := ⟨"Absol", "A", "total", none, none, none, none, none, none⟩

/-- A row of the same primary type with the `"None"` secondary sentinel. -/
def recNoneType : Record := ⟨"Aron", "A", "None", none, none, none, none, none, none⟩

/-- A dataset exhibiting the `"total"` key collision. -/
def collisionData : List Record := [recTotalType, recNoneType]

/-! ## Helper lemmas about `uniqueKeys` -/

theorem mem_uniqueAux (a : String) (l : List String) :
    ∀ seen : List String, a ∈ uniqueAux seen l ↔ a ∈ l ∧ a ∉ seen := by
  induction l with
  | nil => intro seen; simp [uniqueAux]
  | cons x xs ih =>
    intro seen
    by_cases hx : x ∈ seen
    · rw [show uniqueAux seen (x :: xs) = uniqueAux seen xs from by
        simp [uniqueAux, hx]]
      rw [ih seen]
      have hax : a = x → a ∈ seen := fun h => h ▸ hx
      simp only [List.mem_cons]
      tauto
    · rw [show uniqueAux seen (x :: xs) = x :: uniqueAux (x :: seen) xs from by
        simp [uniqueAux, hx]]
      have hax : a = x → a ∉ seen := fun h => h ▸ hx
      simp only [List.mem_cons, ih (x :: seen), List.mem_cons]
      tauto

theorem nodup_uniqueAux (l : List String) :
    ∀ seen : List String, (uniqueAux seen l).Nodup := by
  induction l with
  | nil => intro seen; simp [uniqueAux]
  | cons x xs ih =>
    intro seen
    by_cases hx : x ∈ seen
    · rw [show uniqueAux seen (x :: xs) = uniqueAux seen xs from by
        simp [uniqueAux, hx]]
      exact ih seen
    · rw [show uniqueAux seen (x :: xs) = x :: uniqueAux (x :: seen) xs from by
        simp [uniqueAux, hx]]
      refine List.nodup_cons.mpr ⟨?_, ih (x :: seen)⟩
      intro hmem
      exact ((mem_uniqueAux x xs (x :: seen)).mp hmem).2 (List.mem_cons_self x seen)

theorem mem_uniqueKeys {a : String} {l : List String} :
    a ∈ uniqueKeys l ↔ a ∈ l := by
  simp [uniqueKeys, mem_uniqueAux a l []]

theorem nodup_uniqueKeys (l : List String) : (uniqueKeys l).Nodup :=
  nodup_uniqueAux l []

/-- Partition counting: summing, over a duplicate-free list of keys covering
all of `l`, the number of elements of `l` mapped to each key, counts every
element of `l` exactly once. -/
theorem sum_map_length_filter {α : Type} (f : α → String) :
    ∀ keys : List String, keys.Nodup → ∀ l : List α, (∀ x ∈ l, f x ∈ keys) →
      ((keys.map fun k => (l.filter fun x => f x = k).length).sum = l.length) := by
  intro keys
  induction keys with
  | nil =>
    intro _ l hcov
    have : l = [] := List.eq_nil_iff_forall_not_mem.mpr fun x hx => by
      simpa using hcov x hx
    simp [this]
  | cons k ks ih =>
    intro hnd l hcov
    have hknotin : k ∉ ks := (List.nodup_cons.mp hnd).1
    have hndks : ks.Nodup := (List.nodup_cons.mp hnd).2
    simp only [List.map_cons, List.sum_cons]
    have hrest : (ks.map fun k2 => (l.filter fun x => f x = k2).length)
        = ks.map fun k2 => ((l.filter fun x => ¬ f x = k).filter
            fun x => f x = k2).length := by
      apply List.map_congr_left
      intro k2 hk2
      have hk2k : k2 ≠ k := fun h => hknotin (h ▸ hk2)
      rw [List.filter_filter]
      congr 1
      apply List.filter_congr
      intro x _
      by_cases hfx : f x = k2
      · simp [hfx, hk2k]
      · simp [hfx]
    rw [hrest, ih hndks (l.filter fun x => ¬ f x = k) ?cov]
    case cov =>
      intro x hx
      have hxl : x ∈ l := List.mem_of_mem_filter hx
      have hxk : ¬ f x = k := by simpa using (List.mem_filter.mp hx).2
      rcases List.mem_cons.mp (hcov x hxl) with h | h
      · exact absurd h hxk
      · exact h
    clear hcov hrest
    induction l with
    | nil => simp
    | cons y ys ihy =>
      simp only [decide_not] at ihy ⊢
      by_cases hy : f y = k <;> simp [hy] <;> omega

/-! ## Lemmas about the Epanechnikov kernel and the mean -/

theorem kernelEpanechnikov_nonneg (v : ℚ) : 0 ≤ kernelEpanechnikov 20 v := by
  unfold kernelEpanechnikov
  split
  · rename_i h
    have h1 : v / 20 * (v / 20) ≤ 1 := by
      rcases abs_le.mp h with ⟨hl, hr⟩
      nlinarith
    apply div_nonneg
    · nlinarith
    · norm_num
  · exact le_refl 0

theorem kernelEpanechnikov_le (v : ℚ) : kernelEpanechnikov 20 v ≤ 3 / 80 := by
  unfold kernelEpanechnikov
  split
  · have h2 : 0 ≤ v / 20 * (v / 20) := mul_self_nonneg _
    rw [div_le_div_iff₀ (by norm_num) (by norm_num)]
    nlinarith
  · norm_num

theorem kernelEpanechnikov_at_center : kernelEpanechnikov 20 0 = 3 / 80 := by
  norm_num [kernelEpanechnikov]

theorem dmean_nonneg (V : List ℚ) (h : ∀ a ∈ V, 0 ≤ a) : 0 ≤ dmean V :=
  div_nonneg (List.sum_nonneg h) (Nat.cast_nonneg _)

theorem dmean_pair (a : ℚ) : dmean [a, a] = a := by
  simp [dmean]

/-! ## The claims about the density estimator -/

/-- C1: for every sample of at least 2 valid observations and every
evaluation grid, the Epanechnikov-kernel density estimate has one value per
grid point and every density value is nonnegative. -/
theorem c1_estimate_length_and_nonneg (V X : List ℚ) (hV : 2 ≤ V.length) :
    (kde X V).length = X.length ∧ ∀ p ∈ kde X V, 0 ≤ p.2 := by
  constructor
  · simp [kde, kernelDensityEstimator]
  · intro p hp
    simp only [kde, kernelDensityEstimator, List.mem_map] at hp
    obtain ⟨x, hx, rfl⟩ := hp
    apply dmean_nonneg
    intro a ha
    obtain ⟨v, hv, rfl⟩ := List.mem_map.mp ha
    exact kernelEpanechnikov_nonneg _

/-- Witness for C1 at the sample `[1, 2]` and grid `[0, 1]`. -/
theorem c1_estimate_length_and_nonneg_witness :
    (kde [0, 1] [1, 2]).length = ([0, 1] : List ℚ).length ∧
      ∀ p ∈ kde [0, 1] [1, 2], 0 ≤ p.2 :=
  c1_estimate_length_and_nonneg [1, 2] [0, 1] (by decide)

/-- C2: a sample with fewer than 2 valid numeric observations yields the
explicit empty density, not zeros and not any other length. -/
theorem c2_insufficient_sample_empty (X : List ℚ) (values : List (Option ℚ))
    (h : (values.filterMap id).length < 2) :
    updateToGenerationDensity X values = [] := by
  unfold updateToGenerationDensity
  rw [if_neg (by omega)]

/-- Witness for C2 at the single-observation sample `[some 5]`. -/
theorem c2_insufficient_sample_empty_witness :
    updateToGenerationDensity [0, 1] [some 5] = [] :=
  c2_insufficient_sample_empty [0, 1] [some 5] (by decide)

/-- C9: for the sample `[10, 10]` and any grid containing `x = 10`, the
density is defined (non-empty) and its maximum is the finite positive value
`3/80`, attained at `x = 10`. -/
theorem c9_density_peak_at_ten (X : List ℚ) (hX : (10 : ℚ) ∈ X) :
    updateToGenerationDensity X [some 10, some 10] ≠ [] ∧
      ∃ p ∈ updateToGenerationDensity X [some 10, some 10],
        p.1 = 10 ∧ p.2 = 3 / 80 ∧ 0 < p.2 ∧
          ∀ q ∈ updateToGenerationDensity X [some 10, some 10], q.2 ≤ p.2 := by
  have hform : updateToGenerationDensity X [some 10, some 10]
      = X.map fun x => (x, kernelEpanechnikov 20 (x - 10)) := by
    simp only [updateToGenerationDensity]
    rw [show (([some 10, some 10] : List (Option ℚ)).filterMap id) = [10, 10] from rfl]
    rw [if_pos (by norm_num)]
    unfold kde kernelDensityEstimator
    apply List.map_congr_left
    intro x _
    simp [dmean_pair]
  rw [hform]
  constructor
  · intro hnil
    rw [List.map_eq_nil_iff] at hnil
    subst hnil
    simp at hX
  · refine ⟨(10, kernelEpanechnikov 20 (10 - 10)), List.mem_map_of_mem _ hX, rfl, ?_, ?_, ?_⟩
    · norm_num [kernelEpanechnikov_at_center]
    · norm_num [kernelEpanechnikov_at_center]
    · intro q hq
      obtain ⟨x, hx, rfl⟩ := List.mem_map.mp hq
      calc kernelEpanechnikov 20 (x - 10) ≤ 3 / 80 := kernelEpanechnikov_le _
        _ = kernelEpanechnikov 20 (10 - 10) := by norm_num [kernelEpanechnikov_at_center]

/-- Witness for C9 at the grid `[0, 10, 50]`. -/
theorem c9_density_peak_at_ten_witness :
    updateToGenerationDensity [0, 10, 50] [some 10, some 10] ≠ [] :=
  (c9_density_peak_at_ten [0, 10, 50] (by simp)).1

/-! ## The navigation claims -/

/-- C3: the drill-down navigation is the claimed three-level state machine:
overview click filters to the clicked primary type; a same-primary click on
the filtered view opens the detail list; "back" drops only the secondary
key; "show all" resets every state to the overview; no forward transition
leaves the detail list. -/
theorem c3_navigation_state_machine (p s q t : String) (st : NavState) :
    segmentClick .overview p s = .primaryFiltered p ∧
    segmentClick (.primaryFiltered p) p s = .detailList p s ∧
    backToPrimary (.detailList p s) = .primaryFiltered p ∧
    showAll st = .overview ∧
    segmentClick (.detailList p s) q t = .detailList p s := by
  refine ⟨rfl, ?_, rfl, rfl, rfl⟩
  simp [segmentClick]

/-- C8: a requested primary filter absent from the aggregated data falls
back to the unfiltered aggregate, resets the effective filter to the
overview, and raises the warning signal (and no error: the resolution is a
total function). -/
theorem c8_absent_filter_falls_back (data : List Record) (p : String)
    (hp : ∀ g ∈ baseSortedCountsArray data, g.primaryType ≠ p) :
    resolveBarChartView (baseSortedCountsArray data) (some p) =
      ⟨baseSortedCountsArray data, none, true⟩ := by
  have hfind : (baseSortedCountsArray data).find? (fun d => d.primaryType = p) = none :=
    List.find?_eq_none.mpr fun x hx => by simpa using hp x hx
  simp [resolveBarChartView, hfind]

/-- Witness for C8: the type `"Ghost"` is absent from the sample dataset. -/
theorem c8_absent_filter_falls_back_witness :
    resolveBarChartView (baseSortedCountsArray sampleData) (some "Ghost") =
      ⟨baseSortedCountsArray sampleData, none, true⟩ :=
  c8_absent_filter_falls_back sampleData "Ghost" (by decide)

/-! ## The animation-scrub claim (C5) -/

/-- Counterexample to C5: scrubbing to `-1` (resp. to `length`) on a
3-generation controller leaves the stored index at `-1` (resp. `3`), not at
the claimed clamped values `0` (resp. `2`). -/
theorem c5_scrub_clamping_counterexample :
    ¬ ((sliderInput 3 ⟨0, false, false, some 0⟩ (-1)).currentAnimationGenerationIndex = 0 ∧
       (sliderInput 3 ⟨0, false, false, some 0⟩ 3).currentAnimationGenerationIndex = 2) := by
  decide

/-- C5 as amended: the scrub handler pauses playback and stores the raw
requested index without clamping; the displayed generation changes to the
requested index only when it lies in `[0, length-1]`, otherwise the display
update is silently skipped by the early return and the stored index is left
out of range; no error is raised. -/
theorem c5_scrub_stores_raw_index (len : Nat) (st : AnimationState) (value : Int) :
    (sliderInput len st value).currentAnimationGenerationIndex = value ∧
    (sliderInput len st value).isPlaying = false ∧
    (sliderInput len st value).displayedGeneration =
      (if 0 ≤ value ∧ value < (len : Int) then some value
       else st.displayedGeneration) := by
  unfold sliderInput updateToGeneration pauseAnimation
  by_cases hp : st.isPlaying <;>
    by_cases hr : value < 0 ∨ value ≥ (len : Int) <;>
      simp [hp, hr] <;>
        first
          | omega
          | (rw [if_neg (by omega)])
          | (rw [if_pos (by omega)])

/-! ## The aggregation claims -/

theorem nodup_allSecondaryTypes (data : List Record) :
    (allSecondaryTypes data).Nodup :=
  (List.perm_insertionSort noneFirstBefore _).nodup_iff.mpr
    (nodup_uniqueKeys _)

theorem mem_allSecondaryTypes_of_mem (data : List Record) {x : Record}
    (hx : x ∈ data) : x.Type_2 ∈ allSecondaryTypes data := by
  unfold allSecondaryTypes
  rw [List.mem_insertionSort, mem_uniqueKeys]
  exact List.mem_map_of_mem _ hx

/-- C6: the group totals of the aggregation sum to the number of records
that pass the bar chart's validity filter (this analysis groups every
record: `d3.rollup` partitions the whole dataset by `Type_1` and sets
`total = leaves.length`, so the valid count is the dataset size). -/
theorem c6_totals_sum_to_record_count (data : List Record) :
    ((baseSortedCountsArray data).map CategoryGroup.total).sum = data.length := by
  have hperm : ((baseSortedCountsArray data).map CategoryGroup.total).sum
      = ((countsByTypeFull data).map CategoryGroup.total).sum :=
    ((List.perm_insertionSort totalDesc _).map CategoryGroup.total).sum_eq
  rw [hperm]
  unfold countsByTypeFull
  rw [List.map_map]
  exact sum_map_length_filter Record.Type_1 _ (nodup_uniqueKeys _) data
    fun x hx => mem_uniqueKeys.mpr (List.mem_map_of_mem _ hx)

/-- C7: the aggregation output is sorted descending by `total`; ties keep
input encounter order (any fixed total's subsequence is exactly its
subsequence in the unsorted rollup); and the ordering is idempotent:
re-sorting the already-sorted output changes nothing (re-aggregating the
identical input is the same pure computation, hence deterministic). -/
theorem c7_descending_stable_idempotent (data : List Record) :
    List.Sorted totalDesc (baseSortedCountsArray data) ∧
    (∀ n : Nat, (baseSortedCountsArray data).filter (fun g => g.total = n)
        = (countsByTypeFull data).filter (fun g => g.total = n)) ∧
    List.insertionSort totalDesc (baseSortedCountsArray data)
        = baseSortedCountsArray data := by
  have hsorted : List.Sorted totalDesc (baseSortedCountsArray data) :=
    List.sorted_insertionSort totalDesc (countsByTypeFull data)
  refine ⟨hsorted, ?_, hsorted.insertionSort_eq⟩
  intro n
  have hcmem : ∀ g ∈ (countsByTypeFull data).filter (fun g => g.total = n),
      g.total = n := fun g hg => by simpa using (List.mem_filter.mp hg).2
  have hcpw : ((countsByTypeFull data).filter
      (fun g => g.total = n)).Pairwise totalDesc := by
    apply List.pairwise_of_forall_mem_list
    intro a ha b hb
    unfold totalDesc
    rw [hcmem a ha, hcmem b hb]
  have hsub : List.Sublist ((countsByTypeFull data).filter (fun g => g.total = n))
      (baseSortedCountsArray data) :=
    List.sublist_insertionSort hcpw (List.filter_sublist _)
  have hsub2 : List.Sublist ((countsByTypeFull data).filter (fun g => g.total = n))
      ((baseSortedCountsArray data).filter (fun g => g.total = n)) := by
    have h2 := hsub.filter (fun g => g.total = n)
    have h3 : (fun a : CategoryGroup => decide (a.total = n) && decide (a.total = n))
        = fun a : CategoryGroup => decide (a.total = n) := by
      funext a
      exact Bool.and_self _
    rwa [List.filter_filter, h3] at h2
  have hlen : ((countsByTypeFull data).filter (fun g => g.total = n)).length
      = ((baseSortedCountsArray data).filter (fun g => g.total = n)).length :=
    (((List.perm_insertionSort totalDesc
        (countsByTypeFull data)).filter _).length_eq).symm
  exact (hsub2.eq_of_length hlen).symm

/-- Reading a key present in a `countsFor`-shaped object (followed by any
appended entries) returns that key's bucket: `find?` hits the first entry,
which carries the key's leaf count. -/
theorem readKey_countsFor_append (c : String → Nat) :
    ∀ (keys : List String) (rest : List (String × Nat)) (s : String),
      s ∈ keys →
      readKey ((keys.map fun t => (t, c t)) ++ rest) s = c s := by
  intro keys
  induction keys with
  | nil => intro rest s hs; cases hs
  | cons t ts ih =>
    intro rest s hs
    by_cases hts : t = s
    · subst hts
      simp [readKey]
    · have hs2 : s ∈ ts := by
        rcases List.mem_cons.mp hs with h | h
        · exact absurd h.symm hts
        · exact h
      have := ih rest s hs2
      simp only [readKey] at this ⊢
      rwa [List.map_cons, List.cons_append, List.find?_cons_of_neg _ (by simpa using hts)]

/-- When no secondary type is literally named `"total"`, the reducer's final
`counts.total = leaves.length` assignment appends a fresh key instead of
overwriting a bucket. -/
theorem assign_total_append (secTypes : List String) (leaves : List Record)
    (n : Nat) (hnt : "total" ∉ secTypes) :
    assign (countsFor secTypes leaves) "total" n
      = countsFor secTypes leaves ++ [("total", n)] := by
  unfold assign
  rw [if_neg]
  intro hmem
  apply hnt
  have hkeys : (countsFor secTypes leaves).map Prod.fst = secTypes := by
    unfold countsFor
    rw [List.map_map]
    exact List.map_id _
  rwa [hkeys] at hmem

/-- Counterexample to C10 as stated: the claim quantifies over every input
dataset, but on `collisionData` — two records of primary type `"A"` with
secondary types `"total"` and `"None"` — the reducer's final
`counts.total = leaves.length` assignment overwrites the `"total"` bucket
(count 1 becomes 2), so the per-secondary-type reads of the one produced
group sum to 3 while its total is 2. -/
theorem c10_secondary_counts_counterexample :
    ¬ (∀ g ∈ (resolveBarChartView (baseSortedCountsArray collisionData)
          none).currentSortedCountsArray,
        ((allSecondaryTypes collisionData).map fun s => readKey g.counts s).sum
          = g.total) := by
  decide

/-- C10 as amended: for every group the aggregation produces — at the
overview as well as at drill-down levels, where a single-element group list
is displayed — the per-secondary-type reads of the counts object sum to the
group's `total`, provided no record's secondary category is the literal
string `"total"`: the secondary domain is precomputed from the same full
dataset and is duplicate-free, so each member lands in exactly one bucket,
and without the name collision the reducer's final `counts.total`
assignment appends a fresh key instead of overwriting a bucket. -/
theorem c10_secondary_counts_sum_to_total (data : List Record)
    (activeFilterPrimaryType : Option String) (g : CategoryGroup)
    (hg : g ∈ (resolveBarChartView (baseSortedCountsArray data)
        activeFilterPrimaryType).currentSortedCountsArray)
    (htot : ∀ r ∈ data, r.Type_2 ≠ "total") :
    ((allSecondaryTypes data).map fun s => readKey g.counts s).sum = g.total := by
  have hsortmem : ∀ {h : CategoryGroup}, h ∈ baseSortedCountsArray data →
      h ∈ countsByTypeFull data := fun hh => by
    rwa [baseSortedCountsArray, List.mem_insertionSort] at hh
  have hbase : g ∈ countsByTypeFull data := by
    cases activeFilterPrimaryType with
    | none => exact hsortmem (by simpa [resolveBarChartView] using hg)
    | some p =>
      rcases hq : (baseSortedCountsArray data).find?
          (fun d => d.primaryType = p) with _ | q
      · exact hsortmem (by simpa [resolveBarChartView, hq] using hg)
      · have hgq : g = q := by simpa [resolveBarChartView, hq] using hg
        exact hsortmem (hgq ▸ List.mem_of_find?_eq_some hq)
  have hnt : "total" ∉ allSecondaryTypes data := by
    intro hmem
    unfold allSecondaryTypes at hmem
    rw [List.mem_insertionSort, mem_uniqueKeys] at hmem
    obtain ⟨r, hr, hrt⟩ := List.mem_map.mp hmem
    exact htot r hr hrt
  obtain ⟨pk, _, rfl⟩ := List.mem_map.mp hbase
  show ((allSecondaryTypes data).map fun s =>
      readKey (assign (countsFor (allSecondaryTypes data)
          (data.filter fun d => d.Type_1 = pk)) "total"
        (data.filter fun d => d.Type_1 = pk).length) s).sum
    = (data.filter fun d => d.Type_1 = pk).length
  rw [assign_total_append _ _ _ hnt]
  have hrw : ∀ s ∈ allSecondaryTypes data,
      readKey (countsFor (allSecondaryTypes data)
            (data.filter fun d => d.Type_1 = pk) ++
          [("total", (data.filter fun d => d.Type_1 = pk).length)]) s
        = ((data.filter fun d => d.Type_1 = pk).filter
            fun x => x.Type_2 = s).length := by
    intro s hs
    exact readKey_countsFor_append
      (fun t => ((data.filter fun d => d.Type_1 = pk).filter
        fun x => x.Type_2 = t).length)
      (allSecondaryTypes data)
      [("total", (data.filter fun d => d.Type_1 = pk).length)] s hs
  rw [List.map_congr_left hrw]
  exact sum_map_length_filter Record.Type_2 _ (nodup_allSecondaryTypes data) _
    fun x hx => mem_allSecondaryTypes_of_mem data (List.mem_of_mem_filter hx)

/-- Witness for the amended C10 at the sample dataset's leading (Grass)
group, whose counts object is `{None: 0, Poison: 2, total: 2}`. -/
theorem c10_secondary_counts_sum_to_total_witness :
    ((allSecondaryTypes sampleData).map fun s =>
        readKey (⟨"Grass", [("None", 0), ("Poison", 2), ("total", 2)], 2⟩
          : CategoryGroup).counts s).sum
      = (⟨"Grass", [("None", 0), ("Poison", 2), ("total", 2)], 2⟩
          : CategoryGroup).total :=
  c10_secondary_counts_sum_to_total sampleData none
    ⟨"Grass", [("None", 0), ("Poison", 2), ("total", 2)], 2⟩
    (by decide) (by decide)

/-! ## The selection-coordinator claim (C4) -/

/-- C4: replacing the active-category set with `S` clears the focus in the
same update whenever the focused record's primary type is not in `S`
(record names are the dataset identity, hence duplicate-free); focusing an
identity with no row in the current filtered working set leaves the state
unchanged; and after the update, a surviving focus always names a row of
the new working set. -/
theorem c4_focus_consistency (data : List Record) (S : List String)
    (st : PcpState) (sel : Record) (name : String)
    (hnodup : ((allValidPokemonData data).map Record.Name).Nodup) :
    (st.selectedPokemon = some sel → sel ∈ allValidPokemonData data →
        sel.Type_1 ∉ S → (updatePlot data S st).selectedPokemon = none) ∧
    ((∀ r ∈ dataToPlot data st.checkedTypes, r.Name ≠ name) →
        clickPokemonPath data st name = st) ∧
    (∀ f, (updatePlot data S st).selectedPokemon = some f →
        ∃ r ∈ dataToPlot data S, r.Name = f.Name) := by
  refine ⟨?_, ?_, ?_⟩
  · intro hsel hmem hS
    rcases hq : (dataToPlot data S).find? (fun p => p.Name = sel.Name) with _ | q
    · simp [updatePlot, hsel, hq]
    · exfalso
      have hqmem := List.mem_of_find?_eq_some hq
      have hqname : q.Name = sel.Name := by simpa using List.find?_some hq
      have hqsplit : q ∈ allValidPokemonData data ∧ q.Type_1 ∈ S := by
        have := List.mem_filter.mp hqmem
        exact ⟨this.1, by simpa using this.2⟩
      have hqsel : q = sel :=
        List.inj_on_of_nodup_map hnodup hqsplit.1 hmem hqname
      exact hS (hqsel ▸ hqsplit.2)
  · intro h
    have hfind : (dataToPlot data st.checkedTypes).find?
        (fun d => d.Name = name) = none :=
      List.find?_eq_none.mpr fun x hx => by simpa using h x hx
    simp [clickPokemonPath, hfind]
  · intro f hf
    rcases hsp : st.selectedPokemon with _ | sp
    · simp [updatePlot, hsp] at hf
    · rcases hq : (dataToPlot data S).find? (fun p => p.Name = sp.Name) with _ | q
      · simp [updatePlot, hsp, hq] at hf
      · have hfsp : f = sp := by
          have := hf
          simp [updatePlot, hsp, hq] at this
          exact this.symm
        refine ⟨q, List.mem_of_find?_eq_some hq, ?_⟩
        have : q.Name = sp.Name := by simpa using List.find?_some hq
        rw [this, hfsp]

/-- Witness for C4: dropping `"Electric"` from the active set clears the
Pikachu focus, and focusing the absent name `"Mewtwo"` is a no-op. -/
theorem c4_focus_consistency_witness :
    (updatePlot sampleData ["Grass"]
        ⟨["Electric", "Grass"], some recPikachu⟩).selectedPokemon = none ∧
    clickPokemonPath sampleData ⟨["Electric", "Grass"], some recPikachu⟩ "Mewtwo"
      = ⟨["Electric", "Grass"], some recPikachu⟩ :=
  ⟨(c4_focus_consistency sampleData ["Grass"]
      ⟨["Electric", "Grass"], some recPikachu⟩ recPikachu "Mewtwo"
      (by decide)).1 rfl (by decide) (by decide),
   (c4_focus_consistency sampleData ["Grass"]
      ⟨["Electric", "Grass"], some recPikachu⟩ recPikachu "Mewtwo"
      (by decide)).2.1 (by decide)⟩

end Viz
